import Mathlib

/-!
# Verification of the record/replay command subsystem (`azwebapps/cmd.py`)

Shallow embedding of the command execution and record/replay subsystem:

* `CmdRun`   — an Invocation Record (command text, exit code, stdout, stderr);
* `Json`     — the value universe of the persisted session-log document;
* `Player`   — the Replay Cursor (`Player.get`, `Player.assert_at_the_end`);
* `Recorder` / `RecState` — the Session Log together with its persisted file;
* `CmdState` — the Command Executor (`Cmd.q`, `Cmd.json`).

Mutable Python objects become explicit state passing: a method that mutates
`self` returns the updated value; a method that can raise returns `Except`
(or a pair carrying the error plus the post-state of the object, when the
object may observe a raise). Diagnostic printing to stderr (`print_err`)
carries no state and is not modelled. The live subprocess invocation in
`CmdRun.__init__` is external input: its captured exit code / stdout /
stderr enter the model as parameters wherever the live branch is taken.
-/

/-- Minimal universe of JSON values, sufficient for the session-log document
(`json.dump` / `json.load` of a dict with a string list and a list of
4-tuples).  `null` is Python's `None`, which `json.loads "null"` returns. -/
inductive Json where
  | null : Json
  | str (s : String) : Json
  | int (n : Int) : Json
  | arr (xs : List Json) : Json
  | obj (kvs : List (String × Json)) : Json
deriving Repr

/-- Map a fallible decoder over a list, propagating the first failure
(Python's `list(map(f, ll))` where `f` may raise). -/
def mapOpt (f : α → Option β) : List α → Option (List β)
  | [] => some []
  | a :: as => do
      let b ← f a
      let bs ← mapOpt f as
      some (b :: bs)

/-- Key lookup on a JSON object (`load[key]`); `none` models Python's
`KeyError` / `TypeError`. -/
def Json.lookup : Json → String → Option Json
  | Json.obj kvs, k => kvs.lookup k
  | _, _ => none

/-- Destructure an array of arrays (the shape of the `records` field after
`json.load`); `none` models the `TypeError` Python would raise when the
document does not have that shape. -/
def Json.toListOfLists : Json → Option (List (List Json))
  | Json.arr xs =>
      mapOpt (fun x => match x with
        | Json.arr l => some l
        | _ => none) xs
  | _ => none

/-- `CmdRun`: one Invocation Record — the command string plus its captured
outcome.  Fields mirror the Python class attributes `cmd`, `rc`, `out`,
`err`. -/
structure CmdRun where
  cmd : String
  rc : Int
  out : String
  err : String
deriving Repr, DecidableEq

/-- The deserializing path of `CmdRun.__init__` (the `rc is not None`
branch): `self.err = err or ""` and `self.out = out or ""`.  Python `or` on
a string maps the empty string to the default `""` (an identity in effect,
written out to mirror the source). -/
def CmdRun.mk_vals (cmd : String) (rc : Int) (out err : String) : CmdRun :=
  { cmd := cmd
    rc := rc
    out := if out = "" then "" else out
    err := if err = "" then "" else err }

/-- `CmdRun.to_list`: serialize as the ordered 4-tuple
`[cmd, rc, out, err]`. -/
def CmdRun.to_list (r : CmdRun) : List Json :=
  [Json.str r.cmd, Json.int r.rc, Json.str r.out, Json.str r.err]

/-- `CmdRun.from_list`: rebuild a record from a serialized 4-tuple by
unpacking it into the constructor (`CmdRun(*ll)`).  A list that is not a
well-typed 4-tuple `[str, int, str, str]` (the only shape `to_list` ever
writes) is rejected with `none`, modelling the `TypeError` (or the
accidental live-subprocess branch) Python would hit on malformed input. -/
def CmdRun.from_list : List Json → Option CmdRun
  | [Json.str c, Json.int rc, Json.str o, Json.str e] =>
      some (CmdRun.mk_vals c rc o e)
  | _ => none

/-- `Player`: the Replay Cursor.  `records` is the decoded entry list,
`idx` the zero-based position of the next entry to consume. -/
structure Player where
  records : List CmdRun
  idx : Nat
deriving Repr, DecidableEq

/-- Errors raised by `Player.get`: `indexError` is the `IndexError` from
`self.records[self.idx]` when the cursor is past the last entry
(OutOfRecords); `mismatch expected called` is the
`ValueError(f"expected:... but called:...")` (SequenceMismatch), carrying
the recorded command and the requested command. -/
inductive PlayerErr where
  | indexError : PlayerErr
  | mismatch (expected called : String) : PlayerErr
deriving Repr, DecidableEq

/-- `Player.__init__(ll)`: decode every serialized entry
(`list(map(CmdRun.from_list, ll))`) and start at index 0. -/
def Player.mk_records (ll : List (List Json)) : Option Player := do
  let recs ← mapOpt CmdRun.from_list ll
  some { records := recs, idx := 0 }

/-- `Player.get(cmd)`: read `records[idx]` (raising `IndexError` when out of
range), fail with the mismatch `ValueError` when the recorded command
differs from `cmd`, otherwise advance `idx` and return the record.  The
second component is the post-state of the cursor object: unchanged on
either error, advanced by one on success. -/
def Player.get (p : Player) (cmd : String) : Except PlayerErr CmdRun × Player :=
  match p.records[p.idx]? with
  | none => (Except.error PlayerErr.indexError, p)
  | some result =>
      if result.cmd ≠ cmd then
        (Except.error (PlayerErr.mismatch result.cmd cmd), p)
      else
        (Except.ok result, { p with idx := p.idx + 1 })

/-- `Player.assert_at_the_end()`: raise
`ValueError(f"idx:... not at the end:...")` — carrying the consumed count
and the total count — unless `idx == len(records)`. -/
def Player.assert_at_the_end (p : Player) : Except (Nat × Nat) Unit :=
  if p.idx ≠ p.records.length then
    Except.error (p.idx, p.records.length)
  else
    Except.ok ()

/-- The dictionary key `"cmdLine"` (module constant `CMD_LINE`). -/
def CMD_LINE : String := "cmdLine"

/-- The dictionary key `"records"` (module constant `RECORDS`). -/
def RECORDS : String := "records"

/-- `parse_recorder_file(file)`: `json.load` the persisted document and
return the raw pair `(load[CMD_LINE], load[RECORDS])` without further
decoding; `none` models the `KeyError` when either field is missing. -/
def parse_recorder_file (file : Json) : Option (Json × Json) := do
  let cl ← file.lookup CMD_LINE
  let rs ← file.lookup RECORDS
  some (cl, rs)

/-- `Recorder`: the in-memory part of the Session Log — the original
command line and the serialized record entries, in insertion order.  In the
source these live in `self.content` (a dict holding `cmd_line` under
`CMD_LINE` and aliasing `self.records` under `RECORDS`). -/
structure Recorder where
  cmd_line : List String
  records : List (List Json)
deriving Repr

/-- The document `json.dump(self.content, ...)` writes: the command line
under `CMD_LINE` and the records under `RECORDS`, in insertion order. -/
def Recorder.content (r : Recorder) : Json :=
  Json.obj [(CMD_LINE, Json.arr (r.cmd_line.map Json.str)),
            (RECORDS, Json.arr (r.records.map Json.arr))]

/-- A Session Log together with the current content of its persisted file
(`self.file` on disk).  The file is modelled by its content, the single
JSON document the recorder owns. -/
structure RecState where
  recorder : Recorder
  file : Json
deriving Repr

/-- `Recorder.write()`: rewrite the whole persisted file from the in-memory
content. -/
def Recorder.write (s : RecState) : RecState :=
  { s with file := s.recorder.content }

/-- `Recorder.__init__(file, cmd_line)`: initialize an empty log and
immediately persist it.  `file0` is whatever the file held beforehand; it
is overwritten. -/
def Recorder.create (file0 : Json) (cmd_line : List String) : RecState :=
  Recorder.write
    { recorder := { cmd_line := cmd_line, records := [] }, file := file0 }

/-- `Recorder.record(run)`: append the serialized record, then re-persist
the entire log. -/
def RecState.record (s : RecState) (run : CmdRun) : RecState :=
  Recorder.write
    { s with
        recorder :=
          { s.recorder with
              records := s.recorder.records ++ [run.to_list] } }

/-- Append a whole sequence of runs, one `record` call per run. -/
def RecState.recordAll (s : RecState) : List CmdRun → RecState
  | [] => s
  | r :: rs => (s.record r).recordAll rs

/-- Load a Replay Cursor from a persisted session-log file: the composition
`Player(parse_recorder_file(file)[1])` of `parse_recorder_file` with
`Player.__init__`. -/
def playerFromFile (file : Json) : Option Player := do
  let (_, rs) ← parse_recorder_file file
  let ll ← rs.toListOfLists
  Player.mk_records ll

/-- `CmdState`: the Command Executor (`Cmd`).  `record_to` is the optional
Session Log (with its file), `replay_from` the optional Replay Cursor,
`run` the most recent Invocation Record (`self.run`, unset before the first
`q` call). -/
structure CmdState where
  record_to : Option RecState
  replay_from : Option Player
deriving Repr

/-- Full executor state: the configuration plus `self.run` (unset before
the first `q` call). -/
structure CmdFull where
  cfg : CmdState
  run : Option CmdRun
deriving Repr

/-- `Cmd.__init__(record_to, replay_from)`: store both references as given,
with no mutual-exclusion check; `self.run` starts unset. -/
def Cmd.init (record_to : Option RecState) (replay_from : Option Player) :
    CmdFull :=
  { cfg := { record_to := record_to, replay_from := replay_from }, run := none }

/-- Errors raised by `Cmd.q`: `replayErr` propagates the `Player.get`
exception unchanged; `rcError rc` is the `ValueError(f"rc:{rc}")` raised
when the obtained record has a non-zero exit code (CommandFailed). -/
inductive QErr where
  | replayErr (e : PlayerErr) : QErr
  | rcError (rc : Int) : QErr
deriving Repr, DecidableEq

/-- `Cmd.q(cmd)`: dispatch on the mode.  When `replay_from is None`, run
the external command live — its captured exit code / stdout / stderr are
the parameters `liveRc`, `liveOut`, `liveErr` — store the record in
`self.run` and, when `record_to is not None`, append it to the Session Log.
Otherwise pull the next record from the Replay Cursor.  In either branch,
finally raise `ValueError(f"rc:...")` when the record's exit code is
non-zero.  The error carries the executor state at the moment of the
raise, since the mutations above have already happened; `print_out` /
`show_err` echoing goes to the diagnostic stream and is not modelled. -/
def Cmd.q (s : CmdFull) (cmd : String) (liveRc : Int)
    (liveOut liveErr : String) : Except (QErr × CmdFull) CmdFull :=
  match s.cfg.replay_from with
  | none =>
      let r : CmdRun := { cmd := cmd, rc := liveRc, out := liveOut, err := liveErr }
      let s1 : CmdFull :=
        { cfg := { s.cfg with
                     record_to := s.cfg.record_to.map (fun t => t.record r) }
          run := some r }
      if r.rc ≠ 0 then Except.error (QErr.rcError r.rc, s1) else Except.ok s1
  | some p =>
      match p.get cmd with
      | (Except.error e, p2) =>
          Except.error (QErr.replayErr e,
            { s with cfg := { s.cfg with replay_from := some p2 } })
      | (Except.ok r, p2) =>
          let s1 : CmdFull :=
            { cfg := { s.cfg with replay_from := some p2 }, run := some r }
          if r.rc ≠ 0 then Except.error (QErr.rcError r.rc, s1) else Except.ok s1

/-- `Cmd.json()`: `json.loads(self.run.out)` under a bare `try/except`
returning `None` on any failure.  `pyLoads` is the `json.loads` oracle
(`none` = raise); a decoded JSON `null` is Python's `None` as well, so both
the failure path and a decoded `null` yield `Json.null`.  An unset
`self.run` raises `AttributeError`, also caught by the bare `except`. -/
def Cmd.json (s : CmdFull) (pyLoads : String → Option Json) : Json :=
  match s.run with
  | none => Json.null
  | some r =>
      match pyLoads r.out with
      | some v => v
      | none => Json.null

/-- Replay a list of commands in order with `Player.get`, collecting the
returned records; stop at the first error, returning the cursor state at
that point. -/
def Player.replayList (p : Player) :
    List String → Except PlayerErr (List CmdRun) × Player
  | [] => (Except.ok [], p)
  | c :: cs =>
      match p.get c with
      | (Except.error e, p2) => (Except.error e, p2)
      | (Except.ok r, p2) =>
          match p2.replayList cs with
          | (Except.ok rs, p3) => (Except.ok (r :: rs), p3)
          | (Except.error e, p3) => (Except.error e, p3)

/-- The state a `Cmd.q` call leaves the executor in, whether it returned
normally or raised (the raise carries the post-state). -/
def qResultState : Except (QErr × CmdFull) CmdFull → CmdFull
  | Except.ok s1 => s1
  | Except.error (_, s1) => s1

/-! ## Supporting lemmas -/

/-- Deserializing a serialized record restores it field for field. -/
theorem CmdRun.from_list_to_list (r : CmdRun) :
    CmdRun.from_list r.to_list = some r := by
  cases r with
  | mk cmd rc out err =>
      simp only [CmdRun.to_list, CmdRun.from_list, CmdRun.mk_vals,
        Option.some.injEq, CmdRun.mk.injEq, true_and]
      constructor <;> (split <;> simp_all)

/-- Decoding a list of serialized records restores the record list. -/
theorem mapOpt_from_list_map_to_list (runs : List CmdRun) :
    mapOpt CmdRun.from_list (runs.map CmdRun.to_list) = some runs := by
  induction runs with
  | nil => rfl
  | cons r rs ih =>
      simp [mapOpt, CmdRun.from_list_to_list, ih]

/-- Destructuring an array built from a list of arrays restores the list. -/
theorem toListOfLists_map_arr (ll : List (List Json)) :
    Json.toListOfLists (Json.arr (ll.map Json.arr)) = some ll := by
  induction ll with
  | nil => rfl
  | cons x xs ih => simp_all [Json.toListOfLists, mapOpt]

/-- `recordAll` never touches the stored command line. -/
theorem recordAll_cmd_line (runs : List CmdRun) (s : RecState) :
    (s.recordAll runs).recorder.cmd_line = s.recorder.cmd_line := by
  induction runs generalizing s with
  | nil => rfl
  | cons r rs ih => simp [RecState.recordAll, ih, RecState.record, Recorder.write]

/-- `recordAll` appends the serialized records in order. -/
theorem recordAll_records (runs : List CmdRun) (s : RecState) :
    (s.recordAll runs).recorder.records =
      s.recorder.records ++ runs.map CmdRun.to_list := by
  induction runs generalizing s with
  | nil => simp [RecState.recordAll]
  | cons r rs ih =>
      simp [RecState.recordAll, ih, RecState.record, Recorder.write]

/-- After `recordAll` the persisted file matches the in-memory content,
provided it did at the start (it does from `create` on). -/
theorem recordAll_file (runs : List CmdRun) (s : RecState)
    (h : s.file = s.recorder.content) :
    (s.recordAll runs).file = (s.recordAll runs).recorder.content := by
  induction runs generalizing s with
  | nil => exact h
  | cons r rs ih =>
      exact ih (s.record r) rfl

/-- Loading a well-formed session-log document yields a cursor at position
0 over exactly the recorded runs. -/
theorem playerFromFile_content (cl : List String) (runs : List CmdRun) :
    playerFromFile
        (Recorder.content { cmd_line := cl, records := runs.map CmdRun.to_list }) =
      some { records := runs, idx := 0 } := by
  have h1 := toListOfLists_map_arr (runs.map CmdRun.to_list)
  rw [List.map_map] at h1
  simp [playerFromFile, parse_recorder_file, Recorder.content, Json.lookup,
    List.lookup, CMD_LINE, RECORDS, Player.mk_records, h1,
    mapOpt_from_list_map_to_list]

/-- Replaying the commands of `rest` in order, starting at the position
just past `pre`, succeeds, returns exactly `rest`, and leaves the cursor at
the end. -/
theorem replayList_append (rest pre : List CmdRun) :
    Player.replayList { records := pre ++ rest, idx := pre.length }
        (rest.map CmdRun.cmd) =
      (Except.ok rest,
       { records := pre ++ rest, idx := (pre ++ rest).length }) := by
  induction rest generalizing pre with
  | nil => simp [Player.replayList]
  | cons r rs ih =>
      have h0 : (pre ++ r :: rs)[pre.length]? = some r := by
        rw [List.getElem?_append_right (Nat.le_refl _)]
        simp
      have hget :
          ({ records := pre ++ r :: rs, idx := pre.length } : Player).get r.cmd =
            (Except.ok r,
             { records := pre ++ r :: rs, idx := pre.length + 1 }) := by
        simp only [Player.get, h0]
        simp
      have hrec : pre ++ r :: rs = (pre ++ [r]) ++ rs := by simp
      have hidx : pre.length + 1 = (pre ++ [r]).length := by simp
      have ih2 := ih (pre ++ [r])
      simp only [Player.replayList, hget, List.map_cons]
      rw [hrec, hidx, ih2]

/-- After `recordAll` from a consistent state, the persisted file is the
serialized document of the original command line and all records so far. -/
theorem recordAll_file_eq (runs : List CmdRun) (s : RecState)
    (h : s.file = s.recorder.content) :
    (s.recordAll runs).file =
      Recorder.content
        { cmd_line := s.recorder.cmd_line,
          records := s.recorder.records ++ runs.map CmdRun.to_list } := by
  induction runs generalizing s with
  | nil =>
      rw [RecState.recordAll, h]
      simp [Recorder.content]
  | cons r rs ih =>
      rw [RecState.recordAll, ih (s.record r) rfl]
      simp [RecState.record, Recorder.write, Recorder.content]

/-! ## Claims -/

/-- C1: a Session Log built by `create` plus N `append` (`record`) calls,
when its persisted file is loaded into a Replay Cursor and the same N
command texts are replayed in order with `next` (`get`), yields at each
position an Invocation Record equal — in all four fields — to the record
appended at that position, and leaves the cursor exhausted. -/
theorem record_replay_round_trip (file0 : Json) (cl : List String)
    (runs : List CmdRun) :
    playerFromFile (((Recorder.create file0 cl).recordAll runs).file) =
      some { records := runs, idx := 0 } ∧
    Player.replayList { records := runs, idx := 0 } (runs.map CmdRun.cmd) =
      (Except.ok runs, { records := runs, idx := runs.length }) := by
  constructor
  · have h := recordAll_file_eq runs (Recorder.create file0 cl) rfl
    rw [h]
    exact playerFromFile_content cl runs
  · exact replayList_append runs []

/-- C2: when the cursor is not exhausted and the requested command differs
from the recorded one, `get` fails with the mismatch error reporting the
recorded command and the requested command, and leaves the cursor
unchanged; moreover, for any call whatsoever, the position never decreases
and stays within `0 ≤ idx ≤ length(records)`. -/
theorem replay_mismatch_and_position (p : Player) (cmd : String) :
    (∀ (h : p.idx < p.records.length),
        (p.records.get ⟨p.idx, h⟩).cmd ≠ cmd →
          p.get cmd =
            (Except.error (PlayerErr.mismatch (p.records.get ⟨p.idx, h⟩).cmd cmd),
             p)) ∧
    p.idx ≤ ((p.get cmd).2).idx ∧
    (p.idx ≤ p.records.length → ((p.get cmd).2).idx ≤ p.records.length) := by
  refine ⟨?_, ?_, ?_⟩
  · intro h hne
    rw [List.get_eq_getElem] at hne
    have h0 : p.records[p.idx]? = some p.records[p.idx] :=
      List.getElem?_eq_getElem h
    simp only [Player.get, h0, List.get_eq_getElem]
    simp [hne]
  · unfold Player.get
    cases h0 : p.records[p.idx]? with
    | none => simp
    | some r =>
        by_cases hc : r.cmd = cmd <;> simp [hc]
  · intro hle
    unfold Player.get
    cases h0 : p.records[p.idx]? with
    | none => simpa using hle
    | some r =>
        have hlt : p.idx < p.records.length := by
          rcases List.getElem?_eq_some.mp h0 with ⟨hh, _⟩
          exact hh
        by_cases hc : r.cmd = cmd <;> simp [hc] <;> omega

/-- C2 witness: on a one-entry cursor recorded as `"a"`, requesting `"b"`
fails with `mismatch "a" "b"`, the position stays 0, and stays within
bounds. -/
theorem replay_mismatch_and_position_witness :
    ({ records := [{ cmd := "a", rc := 0, out := "out", err := "err" }],
       idx := 0 } : Player).get "b" =
      (Except.error (PlayerErr.mismatch "a" "b"),
       { records := [{ cmd := "a", rc := 0, out := "out", err := "err" }],
         idx := 0 }) ∧
    ((({ records := [{ cmd := "a", rc := 0, out := "out", err := "err" }],
         idx := 0 } : Player).get "b").2).idx ≤ 1 := by
  have T := replay_mismatch_and_position
    { records := [{ cmd := "a", rc := 0, out := "out", err := "err" }], idx := 0 }
    "b"
  exact ⟨T.1 (by decide) (by decide), T.2.2 (by decide)⟩

/-- C3: a cursor whose position equals the number of entries fails any
`get` call, for any command text, with the index-range error
(OutOfRecords), returning no record and leaving the cursor unchanged. -/
theorem replay_out_of_records (p : Player) (cmd : String)
    (h : p.idx = p.records.length) :
    p.get cmd = (Except.error PlayerErr.indexError, p) := by
  have h0 : p.records[p.idx]? = none :=
    List.getElem?_eq_none (Nat.le_of_eq h.symm)
  simp [Player.get, h0]

/-- C3 witness: an exhausted one-entry cursor rejects even the very command
it recorded, rather than returning the stale record. -/
theorem replay_out_of_records_witness :
    ({ records := [{ cmd := "a", rc := 0, out := "o", err := "e" }],
       idx := 1 } : Player).get "a" =
      (Except.error PlayerErr.indexError,
       { records := [{ cmd := "a", rc := 0, out := "o", err := "e" }],
         idx := 1 }) :=
  replay_out_of_records _ _ rfl

/-- C4: `assert_at_the_end` fails — reporting the consumed count and the
total count — exactly when the position differs from the number of entries,
and succeeds (with no state change: it is a pure observer) exactly when
they coincide. -/
theorem assert_exhausted_iff (p : Player) :
    (p.assert_at_the_end = Except.error (p.idx, p.records.length) ↔
       p.idx ≠ p.records.length) ∧
    (p.assert_at_the_end = Except.ok () ↔ p.idx = p.records.length) := by
  unfold Player.assert_at_the_end
  by_cases h : p.idx = p.records.length <;> simp [h]

/-- A successful `get` keeps the records, advances the position by exactly
one, and returns a record whose command is the requested one. -/
theorem Player.get_ok (p p2 : Player) (cmd : String) (r : CmdRun)
    (hget : p.get cmd = (Except.ok r, p2)) :
    p2.records = p.records ∧ p2.idx = p.idx + 1 ∧ r.cmd = cmd := by
  unfold Player.get at hget
  cases h0 : p.records[p.idx]? with
  | none => rw [h0] at hget; simp at hget
  | some res =>
      rw [h0] at hget
      by_cases hcc : res.cmd = cmd
      · simp only [hcc, ne_eq, not_true_eq_false, if_false, ite_false,
          Prod.mk.injEq, Except.ok.injEq] at hget
        obtain ⟨h1, h2⟩ := hget
        subst h1
        rw [← h2]
        exact ⟨rfl, rfl, hcc⟩
      · simp [hcc] at hget

/-- C5: in every mode, `q` raises the exit-code error exactly when the
obtained Invocation Record's exit code is non-zero — the captured stdout
and stderr are universally quantified and irrelevant — and succeeds exactly
when it is zero; deserializing a record never fails on a non-zero exit
code, so the check in `q` is the only path by which a non-zero exit
surfaces as an error. -/
theorem nonzero_exit_raises (rec0 : Option RecState) (run0 : Option CmdRun)
    (p p2 : Player) (r : CmdRun) (cmd : String) (liveRc : Int)
    (lo le : String) (hget : p.get cmd = (Except.ok r, p2)) :
    ((∃ s1, Cmd.q ⟨⟨rec0, none⟩, run0⟩ cmd liveRc lo le =
        Except.error (QErr.rcError liveRc, s1)) ↔ liveRc ≠ 0) ∧
    ((∃ s1, Cmd.q ⟨⟨rec0, none⟩, run0⟩ cmd liveRc lo le = Except.ok s1) ↔
        liveRc = 0) ∧
    ((∃ s1, Cmd.q ⟨⟨rec0, some p⟩, run0⟩ cmd liveRc lo le =
        Except.error (QErr.rcError r.rc, s1)) ↔ r.rc ≠ 0) ∧
    ((∃ s1, Cmd.q ⟨⟨rec0, some p⟩, run0⟩ cmd liveRc lo le = Except.ok s1) ↔
        r.rc = 0) ∧
    (∀ c rc o e,
        (CmdRun.from_list
            [Json.str c, Json.int rc, Json.str o, Json.str e]).isSome) := by
  refine ⟨?_, ?_, ?_, ?_, ?_⟩
  · by_cases h : liveRc = 0 <;> simp [Cmd.q, h]
  · by_cases h : liveRc = 0 <;> simp [Cmd.q, h]
  · by_cases h : r.rc = 0 <;> simp [Cmd.q, hget, h]
  · by_cases h : r.rc = 0 <;> simp [Cmd.q, hget, h]
  · intro c rc o e
    simp [CmdRun.from_list]

/-- C5 witness: a live run of `"x"` that exits 2 raises the exit-code
error (shown via the replay hypothesis on a matching one-entry cursor). -/
theorem nonzero_exit_raises_witness :
    ∃ s1, Cmd.q ⟨⟨none, none⟩, none⟩ "x" 2 "so" "se" =
      Except.error (QErr.rcError 2, s1) :=
  (nonzero_exit_raises none none
      { records := [{ cmd := "x", rc := 2, out := "a", err := "b" }], idx := 0 }
      { records := [{ cmd := "x", rc := 2, out := "a", err := "b" }], idx := 1 }
      { cmd := "x", rc := 2, out := "a", err := "b" }
      "x" 2 "so" "se" rfl).1.mpr (by decide)

/-- C6: replay matching is defined solely on the command field: whenever
the entry at the current position carries command text equal to the
request, `get` succeeds with exactly that entry and advances the position —
for every exit code, stdout and stderr that entry may hold. -/
theorem replay_match_on_cmd_only (p : Player) (cmd : String)
    (h : p.idx < p.records.length)
    (hc : (p.records.get ⟨p.idx, h⟩).cmd = cmd) :
    p.get cmd =
      (Except.ok (p.records.get ⟨p.idx, h⟩),
       { records := p.records, idx := p.idx + 1 }) := by
  rw [List.get_eq_getElem] at hc ⊢
  have h0 : p.records[p.idx]? = some p.records[p.idx] :=
    List.getElem?_eq_getElem h
  simp [Player.get, h0, hc]

/-- C6 witness: a record with non-zero exit code 7 and arbitrary output is
returned on a matching command. -/
theorem replay_match_on_cmd_only_witness :
    ({ records := [{ cmd := "a", rc := 7, out := "x", err := "y" }],
       idx := 0 } : Player).get "a" =
      (Except.ok { cmd := "a", rc := 7, out := "x", err := "y" },
       { records := [{ cmd := "a", rc := 7, out := "x", err := "y" }],
         idx := 1 }) :=
  replay_match_on_cmd_only
    { records := [{ cmd := "a", rc := 7, out := "x", err := "y" }], idx := 0 }
    "a" (by decide) (by decide)

/-- C7: the persisted file always reflects the in-memory state exactly:
`create` immediately persists the command line with an empty record list —
independently of whatever `file0` the path held before, which is
overwritten — each single `record` call re-persists the whole in-memory
content, and after any N appends from `create` the file is the document of
the original command line plus all N records, in insertion order. -/
theorem session_log_persistence (file0 : Json) (cl : List String)
    (runs : List CmdRun) :
    (Recorder.create file0 cl).file =
      Recorder.content { cmd_line := cl, records := [] } ∧
    (∀ (s : RecState) (run : CmdRun),
        (s.record run).file = (s.record run).recorder.content) ∧
    ((Recorder.create file0 cl).recordAll runs).file =
      Recorder.content { cmd_line := cl, records := runs.map CmdRun.to_list } ∧
    ((Recorder.create file0 cl).recordAll runs).recorder.cmd_line = cl ∧
    ((Recorder.create file0 cl).recordAll runs).recorder.records =
      runs.map CmdRun.to_list := by
  refine ⟨rfl, fun s run => rfl, ?_, ?_, ?_⟩
  · exact recordAll_file_eq runs (Recorder.create file0 cl) rfl
  · rw [recordAll_cmd_line]
    rfl
  · rw [recordAll_records]
    rfl

/-- C8: the structured-data accessor is total — the bare `except` swallows
every failure: when the last result's stdout decodes, the decoded value is
returned; when decoding fails, the result is `Json.null` (Python `None`),
identical to what a successfully decoded `null` yields, so the failure is
indistinguishable from a decoded null except via the diagnostic stream. -/
theorem json_decode_graceful (s : CmdFull) (pyLoads : String → Option Json)
    (r : CmdRun) (hrun : s.run = some r) :
    (∀ v, pyLoads r.out = some v → Cmd.json s pyLoads = v) ∧
    (pyLoads r.out = none → Cmd.json s pyLoads = Json.null) ∧
    (pyLoads r.out = some Json.null → Cmd.json s pyLoads = Json.null) := by
  refine ⟨?_, ?_, ?_⟩ <;> intro a
  · intro ha
    simp [Cmd.json, hrun, ha]
  · simp [Cmd.json, hrun, a]
  · simp [Cmd.json, hrun, a]

/-- C8 witness: with a decoder that rejects `"oops"`, the accessor returns
`Json.null` rather than raising. -/
theorem json_decode_graceful_witness :
    Cmd.json ⟨⟨none, none⟩, some { cmd := "a", rc := 0, out := "oops", err := "" }⟩
        (fun _ => none) = Json.null :=
  (json_decode_graceful
      ⟨⟨none, none⟩, some { cmd := "a", rc := 0, out := "oops", err := "" }⟩
      (fun _ => none)
      { cmd := "a", rc := 0, out := "oops", err := "" } rfl).2.1 rfl

/-- C9: the constructor stores a Session Log and a Replay Cursor together
without any mutual-exclusion check; with both present, every `q` call takes
the replay branch — its outcome is independent of the live-execution
result, the Session Log reference is left untouched (so nothing is ever
appended to it), and the cursor component is exactly what `Player.get`
returns — whether the call returns or raises. -/
theorem both_roles_replay_precedence (t : RecState) (p : Player)
    (run0 : Option CmdRun) (cmd : String) (a a2 : Int) (b c b2 c2 : String) :
    Cmd.init (some t) (some p) = ⟨⟨some t, some p⟩, none⟩ ∧
    Cmd.q ⟨⟨some t, some p⟩, run0⟩ cmd a b c =
      Cmd.q ⟨⟨some t, some p⟩, run0⟩ cmd a2 b2 c2 ∧
    (qResultState (Cmd.q ⟨⟨some t, some p⟩, run0⟩ cmd a b c)).cfg.record_to =
      some t ∧
    (qResultState (Cmd.q ⟨⟨some t, some p⟩, run0⟩ cmd a b c)).cfg.replay_from =
      some (p.get cmd).2 := by
  refine ⟨rfl, ?_, ?_, ?_⟩ <;>
  · rcases hg : p.get cmd with ⟨e, p2⟩
    cases e with
    | error pe => simp [Cmd.q, qResultState, hg]
    | ok r =>
        by_cases hrc : r.rc = 0 <;> simp [Cmd.q, qResultState, hg, hrc]

/-- C10: a `q` call that raises the exit-code error is not atomic: the
carried post-state shows the side effects already done — the failing record
is stored as the last result; in recording mode it has already been
appended to the Session Log and the file re-persisted; in replay mode the
cursor has already advanced one position past the failing record. -/
theorem command_failed_after_side_effects (t : RecState)
    (run0 run1 : Option CmdRun) (cmd : String) (rc : Int) (lo le : String)
    (rec0 : Option RecState) (p p2 : Player) (r : CmdRun)
    (hrc : rc ≠ 0) (hget : p.get cmd = (Except.ok r, p2)) (hr : r.rc ≠ 0) :
    Cmd.q ⟨⟨some t, none⟩, run0⟩ cmd rc lo le =
      Except.error (QErr.rcError rc,
        ⟨⟨some (t.record { cmd := cmd, rc := rc, out := lo, err := le }), none⟩,
         some { cmd := cmd, rc := rc, out := lo, err := le }⟩) ∧
    (t.record { cmd := cmd, rc := rc, out := lo, err := le }).recorder.records =
      t.recorder.records ++
        [CmdRun.to_list { cmd := cmd, rc := rc, out := lo, err := le }] ∧
    (t.record { cmd := cmd, rc := rc, out := lo, err := le }).file =
      (t.record { cmd := cmd, rc := rc, out := lo, err := le }).recorder.content ∧
    Cmd.q ⟨⟨rec0, some p⟩, run1⟩ cmd rc lo le =
      Except.error (QErr.rcError r.rc, ⟨⟨rec0, some p2⟩, some r⟩) ∧
    p2.idx = p.idx + 1 := by
  refine ⟨?_, rfl, rfl, ?_, ?_⟩
  · simp [Cmd.q, hrc]
  · simp [Cmd.q, hget, hr]
  · exact (Player.get_ok p p2 cmd r hget).2.1

/-- C10 witness: replaying a recorded failing command (`"a"`, exit 2)
raises the exit-code error while the carried state has the cursor already
advanced to position 1 and the failing record stored as the last result. -/
theorem command_failed_after_side_effects_witness :
    Cmd.q
        ⟨⟨none, some { records := [{ cmd := "a", rc := 2, out := "o", err := "e" }],
                       idx := 0 }⟩, none⟩
        "a" 2 "o" "e" =
      Except.error (QErr.rcError 2,
        ⟨⟨none, some { records := [{ cmd := "a", rc := 2, out := "o", err := "e" }],
                       idx := 1 }⟩,
         some { cmd := "a", rc := 2, out := "o", err := "e" }⟩) :=
  (command_failed_after_side_effects (Recorder.create Json.null ["p"]) none none
      "a" 2 "o" "e" none
      { records := [{ cmd := "a", rc := 2, out := "o", err := "e" }], idx := 0 }
      { records := [{ cmd := "a", rc := 2, out := "o", err := "e" }], idx := 1 }
      { cmd := "a", rc := 2, out := "o", err := "e" }
      (by decide) rfl (by decide)).2.2.2.1
